import Mathlib

/-!
Verification development for `mpl.py`, a text-based launcher for the mpv
media player.  The embedding models Python strings as `List Char`;
machine-independent Python integers are modelled as `Int`.  Filesystem
interaction points (directory listings, `os.stat` data, absolute-path
resolution, spawned process ids) are passed in as explicit parameters,
since their values come from the outside world.
-/

/-- ASCII lowercasing of one character.  Models the effect of Python's
`str.casefold` on ASCII letters (the only characters the program's
extension tables and search terms use); non-ASCII characters are kept. -/
def py_tolower : Char → Char
  | 'A' => 'a'
  | 'B' => 'b'
  | 'C' => 'c'
  | 'D' => 'd'
  | 'E' => 'e'
  | 'F' => 'f'
  | 'G' => 'g'
  | 'H' => 'h'
  | 'I' => 'i'
  | 'J' => 'j'
  | 'K' => 'k'
  | 'L' => 'l'
  | 'M' => 'm'
  | 'N' => 'n'
  | 'O' => 'o'
  | 'P' => 'p'
  | 'Q' => 'q'
  | 'R' => 'r'
  | 'S' => 's'
  | 'T' => 't'
  | 'U' => 'u'
  | 'V' => 'v'
  | 'W' => 'w'
  | 'X' => 'x'
  | 'Y' => 'y'
  | 'Z' => 'z'
  | c => c

/-- Model of Python `str.casefold` (restricted to ASCII case mapping). -/
def py_casefold (s : List Char) : List Char := s.map py_tolower

/-- The characters of Python's `string.whitespace`. -/
def PY_WHITESPACE : List Char := [' ', '\t', '\n', '\r', '\x0b', '\x0c']

/-- Python `s.strip(cs)`: remove leading and trailing characters drawn
from `cs`. -/
def py_strip_chars (cs : List Char) (s : List Char) : List Char :=
  ((s.dropWhile (· ∈ cs)).reverse.dropWhile (· ∈ cs)).reverse

/-- Python `s.strip(string.whitespace)`. -/
def py_strip (s : List Char) : List Char := py_strip_chars PY_WHITESPACE s

/-- Python `s.lstrip(cs)`. -/
def py_lstrip_chars (cs : List Char) (s : List Char) : List Char :=
  s.dropWhile (· ∈ cs)

/-- Python `s.split(sep)` with an explicit one-character separator:
splits at every occurrence of `sep` and keeps empty fragments, so
`"".split(" ") = [""]` and `"a  b".split(" ") = ["a", "", "b"]`. -/
def py_split (sep : Char) : List Char → List (List Char)
  | [] => [[]]
  | a :: as =>
    match py_split sep as with
    | [] => [[]]
    | w :: ws => if a = sep then [] :: w :: ws else (a :: w) :: ws

/-- Python sequence indexing `l[i]`: negative indices count from the
end; an out-of-range index raises `IndexError`, modelled as `none`. -/
def py_index {α : Type} (l : List α) (i : Int) : Option α :=
  if 0 ≤ i then l.get? i.toNat
  else if -(l.length : Int) ≤ i then l.get? ((l.length : Int) + i).toNat
  else none

/-- Python `s.rfind(c)` for a one-character needle: index of the last
occurrence of `c` in `s`, or `-1` when absent. -/
def py_rfind (c : Char) : List Char → Int
  | [] => -1
  | a :: as =>
    let r := py_rfind c as
    if 0 ≤ r then r + 1 else if a = c then 0 else -1

example : py_split ' ' "a  b".data = ["a".data, [], "b".data] := by decide
example : py_split ' ' [] = [[]] := by decide
example : py_rfind '.' "a.b.c".data = 3 := by decide
example : py_rfind '.' "abc".data = -1 := by decide
example : py_strip " \ta b ".data = "a b".data := by decide

/-! ### Constants of mpl.py -/

/-- `AUDIO_EXTS` from mpl.py. -/
def AUDIO_EXTS : List (List Char) :=
  ["aac".data, "flac".data, "m4a".data, "mp3".data, "ogg".data, "wav".data, "wma".data]

/-- `VIDEO_EXTS` from mpl.py. -/
def VIDEO_EXTS : List (List Char) :=
  ["avi".data, "iso".data, "mkv".data, "mov".data, "mp4".data, "webm".data, "wmv".data]

/-- `OTHER_EXTS` from mpl.py. -/
def OTHER_EXTS : List (List Char) :=
  ["cue".data, "m3u".data, "m3u8".data]

/-- `SUB_EXTS` from mpl.py. -/
def SUB_EXTS : List (List Char) :=
  ["ass".data, "idx".data, "lrc".data, "srt".data, "sub".data, "vtt".data]

/-- `MPV_EXTENSIONS` from mpl.py: concatenation of the four sets. -/
def MPV_EXTENSIONS : List (List Char) :=
  AUDIO_EXTS ++ VIDEO_EXTS ++ OTHER_EXTS ++ SUB_EXTS

/-- `ENV_MPVL_MPV_CMD`: the built-in default player command.  In mpl.py
this value can be overridden through the `MPVL_MPV_CMD` environment
variable at program start; the claims do not depend on its value. -/
def ENV_MPVL_MPV_CMD : List Char := "mpv --force-window".data

/-- `MPV_SUB_FILE_OPTION` from mpl.py. -/
def MPV_SUB_FILE_OPTION : List Char := "--sub-file=".data

/-- `MPV_PAUSE_FLAG` from mpl.py. -/
def MPV_PAUSE_FLAG : List Char := "--pause".data

/-- `MPV_DVD_ISO_OPTION` from mpl.py. -/
def MPV_DVD_ISO_OPTION : List Char := "dvd:// --dvd-device=".data

/-- `MPV_BD_ISO_OPTION` from mpl.py. -/
def MPV_BD_ISO_OPTION : List Char := "bd:// --bluray-device=".data

/-- `DVD9_SIZE` from mpl.py: the DVD/Blu-ray size threshold in bytes. -/
def DVD9_SIZE : Int := 8500000000

/-- `IGNORED_NAMES` from mpl.py.  The source comment announces the set
as case-insensitive, but the membership test applied to it
(`item in IGNORED_NAMES`) is Python tuple membership, which compares
strings exactly. -/
def IGNORED_NAMES : List (List Char) := ["lost+found".data, ".git".data]

/-- `SPACE_CHAR` from mpl.py: `chr(32)`. -/
def SPACE_CHAR : Char := ' '

/-! ### Free functions of mpl.py -/

/-- `search_by_words` from mpl.py: casefold both the term and the text
(unless case-sensitive), split the term on `split_char` into a set
(modelled by `List.dedup`), count the set members whose
whitespace-stripped form is a substring of the text, and succeed when
every member is counted. -/
def search_by_words (term text : List Char) (split_char : Char := SPACE_CHAR)
    (case_sensitive : Bool := false) : Bool :=
  let term' := if case_sensitive then term else py_casefold term
  let text' := if case_sensitive then text else py_casefold text
  let term_set := (py_split split_char term').dedup
  let hit := term_set.countP (fun w => decide (py_strip w <:+: text'))
  term_set.length == hit

example : search_by_words "foo bar".data "xbarfooy".data = true := by decide
example : search_by_words "foo bar".data "foo".data = false := by decide
example : search_by_words [] "anything".data = true := by decide
example : search_by_words "FOO".data "xfooy".data = true := by decide

/-- Two-argument `os.path.join(a, b)` on POSIX: an absolute `b`
replaces `a`; otherwise `b` is appended, inserting `'/'` unless `a` is
empty or already ends with `'/'`. -/
def os_path_join (a b : List Char) : List Char :=
  match b with
  | '/' :: _ => b
  | _ =>
    if a = [] then b
    else if a.getLast? = some '/' then a ++ b
    else a ++ '/' :: b

/-- The extension part of POSIX `os.path.splitext(p)`: locate the last
`'/'` and the last `'.'`; when the last dot lies after the last slash
and some character strictly between them is not a dot, the extension is
the suffix of `p` from that dot on; otherwise it is empty. -/
def splitext_ext (p : List Char) : List Char :=
  let sepIndex := py_rfind '/' p
  let dotIndex := py_rfind '.' p
  if sepIndex < dotIndex then
    if ((p.drop (sepIndex + 1).toNat).take (dotIndex - sepIndex - 1).toNat).any (· ≠ '.')
    then p.drop dotIndex.toNat
    else []
  else []

example : splitext_ext "a.mp3".data = ".mp3".data := by decide
example : splitext_ext ".bashrc".data = [] := by decide
example : splitext_ext "..x".data = [] := by decide
example : splitext_ext "a.b.c".data = ".c".data := by decide
example : splitext_ext "noext".data = [] := by decide
example : splitext_ext "d/.bashrc".data = [] := by decide

/-! ### FdItem -/

/-- `FdItem` from mpl.py: one broadly interpreted file element. -/
structure FdItem where
  is_dir : Bool
  name : List Char
  full : List Char
  size : Int
deriving DecidableEq, Repr

/-- `FdItem.get_ext` from mpl.py (default `with_dot=False`):
`os.path.splitext` on the name followed by `lstrip(".")`. -/
def FdItem.get_ext (it : FdItem) : List Char :=
  py_lstrip_chars ['.'] (splitext_ext it.name)

/-- `FdItem.is_hidden` from mpl.py: first character is `'.'`;
the `IndexError` of an empty name yields `false`. -/
def FdItem.is_hidden (it : FdItem) : Bool :=
  match it.name with
  | [] => false
  | c :: _ => c = '.'

example : FdItem.get_ext ⟨false, "a.MP3".data, [], 1⟩ = "MP3".data := by decide
example : FdItem.get_ext ⟨false, ".bashrc".data, [], 1⟩ = [] := by decide
example : FdItem.is_hidden ⟨false, ".git".data, [], 1⟩ = true := by decide

/-! ### Launcher command construction

`exec_nonblocking` spawns a detached child and returns its pid; the pid
is an external value, so the command builders below return the command
line handed to it. -/

/-- Join command fragments with `SPACE_CHAR`, as `SPACE_CHAR.join(cmd)`
does in mpl.py. -/
def space_join (parts : List (List Char)) : List Char :=
  (parts.intersperse [SPACE_CHAR]).flatten

/-- Wrap a path in double quotes, as `"".join(('"', path, '"'))`. -/
def dquote (p : List Char) : List Char := '"' :: p ++ ['"']

/-- `mpv_open` from mpl.py: the command line passed to
`exec_nonblocking` (the returned pid is external). -/
def mpv_open (path : List Char) (sub_path : List Char := [])
    (paused : Bool := false) : List Char :=
  let cmd := [ENV_MPVL_MPV_CMD]
  let cmd := if paused then cmd ++ [MPV_PAUSE_FLAG] else cmd
  let cmd := if sub_path ≠ [] then cmd ++ [MPV_SUB_FILE_OPTION ++ dquote sub_path] else cmd
  space_join (cmd ++ [dquote path])

/-- `mpv_open_iso` from mpl.py: the command line passed to
`exec_nonblocking`; the device option depends on the file size. -/
def mpv_open_iso (path : List Char) (size : Int := 0)
    (paused : Bool := false) : List Char :=
  let cmd := [ENV_MPVL_MPV_CMD]
  let cmd := if paused then cmd ++ [MPV_PAUSE_FLAG] else cmd
  let cmd := if size < DVD9_SIZE
    then cmd ++ [MPV_DVD_ISO_OPTION ++ dquote path]
    else cmd ++ [MPV_BD_ISO_OPTION ++ dquote path]
  space_join cmd

/-! ### Directory listing (`Navi.refresh_fd_list`) -/

/-- The `OSError` subclasses relevant to `Navi.refresh_fd_list`: the
three it catches, and a fourth constructor for any other `OSError`,
which the method does not catch. -/
inductive OSErr where
  | permissionError
  | fileNotFoundError
  | notADirectoryError
  | otherError
deriving DecidableEq, Repr

/-- One entry as the filesystem reports it to `refresh_fd_list`: the
name from `os.listdir` together with the `os.path.isdir` flag and the
`os.stat(...).st_size` value of the corresponding full path. -/
structure RawEntry where
  name : List Char
  is_dir : Bool
  size : Int
deriving DecidableEq, Repr

/-- The body of the listing loop of `Navi.refresh_fd_list`: skip names
in `IGNORED_NAMES` (exact Python `in` on a tuple of strings), skip
entries whose `st_size` is zero (falsy), and otherwise build an
`FdItem` whose full path joins the current directory with the name. -/
def build_fd_list (cur : List Char) (entries : List RawEntry) : List FdItem :=
  match entries with
  | [] => []
  | e :: rest =>
    if e.name ∈ IGNORED_NAMES then build_fd_list cur rest
    else if e.size = 0 then build_fd_list cur rest
    else ⟨e.is_dir, e.name, os_path_join cur e.name, e.size⟩ :: build_fd_list cur rest

/-- `Navi.refresh_fd_list` from mpl.py, as a function of the outcome of
`natsorted(os.listdir(...))` plus the per-entry stat data (`natsorted`
only reorders the names; the order is taken as given here).  The three
caught `OSError`s leave the freshly cleared list empty; any other error
propagates out of the method. -/
def refresh_fd_list (cur : List Char) (listing : Except OSErr (List RawEntry)) :
    Except OSErr (List FdItem) :=
  match listing with
  | .error .permissionError => .ok []
  | .error .fileNotFoundError => .ok []
  | .error .notADirectoryError => .ok []
  | .error .otherError => .error .otherError
  | .ok entries => .ok (build_fd_list cur entries)

example : refresh_fd_list "/d".data (.ok [⟨".git".data, true, 1⟩, ⟨"a.mp3".data, false, 7⟩])
    = .ok [⟨false, "a.mp3".data, "/d/a.mp3".data, 7⟩] := by rfl
example : refresh_fd_list "/d".data (.ok [⟨"b.mkv".data, false, 0⟩]) = .ok [] := by rfl

/-! ### Navigation and application state

`App` owns the cursor/offset pair, the visible-row budget derived from
the terminal height, and a `NaviFiltered` instance; the fields of both
are flattened into one state record.  `avail_lines` is
`curses.LINES - UNUSED_LINES` and `avail_lines_i` is kept alongside it
by `refresh_sizes`, exactly as in the source. -/

/-- `App.UNUSED_LINES` from mpl.py. -/
def UNUSED_LINES : Int := 3

/-- The mutable state of `App` together with its `NaviFiltered`
navigator (fields of both classes flattened into one record). -/
structure AppState where
  cursor : Int
  offset : Int
  avail_lines : Int
  avail_lines_i : Int
  current_dir_list : List (List Char)
  fd_list : List FdItem
  fd_list_filtered : List FdItem
  filter_show_dirs : Bool
  filter_show_hidden : Bool
  filter_exts : List (List Char)
  filter_text : List Char
  current_message : List Char
  pids : List Int
  sub_path : List Char
  last_item : List Char
deriving DecidableEq, Repr

/-- `App.get_index` from mpl.py. -/
def get_index (s : AppState) : Int := s.cursor + s.offset

/-- `Navi.cd` from mpl.py: strip slashes from the name, ignore `"."`,
append the segment to the current directory list. -/
def navi_cd (dirs : List (List Char)) (name : List Char) : List (List Char) :=
  let name := py_strip_chars ['/'] name
  if name = ".".data then dirs else dirs ++ [name]

/-- The per-entry predicate of `NaviFiltered.refresh_fd_list_filtered`:
the four `continue` tests of the loop, in source order. -/
def keep_item (show_dirs show_hidden : Bool) (exts : List (List Char))
    (ftext : List Char) (it : FdItem) : Bool :=
  if show_dirs = false ∧ it.is_dir = true then false
  else if show_hidden = false ∧ it.is_hidden = true then false
  else if exts ≠ [] ∧ it.is_dir = false ∧ it.get_ext ∉ exts then false
  else if ftext ≠ [] ∧ search_by_words ftext it.name = false then false
  else true

/-- `NaviFiltered.refresh_fd_list_filtered` from mpl.py: rebuild the
filtered list from `fd_list` and the four filter fields. -/
def refresh_fd_list_filtered (s : AppState) : AppState :=
  let p := keep_item s.filter_show_dirs s.filter_show_hidden s.filter_exts s.filter_text
  { s with fd_list_filtered := s.fd_list.filter p }

/-- `NaviFiltered.get_index_by_name` from mpl.py: index of the first
filtered entry with exactly this name, `-1` when absent. -/
def get_index_by_name (l : List FdItem) (name : List Char) : Int :=
  match l.findIdx? (fun it => decide (name = it.name)) with
  | some i => (i : Int)
  | none => -1

/-- `App.reset_index` from mpl.py. -/
def reset_index (s : AppState) : AppState := { s with cursor := 0, offset := 0 }

/-- `App.input_down` from mpl.py. -/
def input_down (s : AppState) : AppState :=
  if get_index s = (s.fd_list_filtered.length : Int) - 1 then s
  else
    let s := { s with cursor := s.cursor + 1 }
    if s.cursor > s.avail_lines_i then
      { s with cursor := s.avail_lines_i, offset := s.offset + 1 }
    else s

/-- `App.input_up` from mpl.py (`if not self.get_index()` is the Python
truthiness test, i.e. a no-op exactly when the index is zero). -/
def input_up (s : AppState) : AppState :=
  if get_index s = 0 then s
  else
    let s := { s with cursor := s.cursor - 1 }
    if s.cursor < 0 then { s with cursor := 0, offset := s.offset - 1 } else s

/-- `App.set_cursor` from mpl.py. -/
def set_cursor (s : AppState) (index : Int) : AppState :=
  let list_i : Int := (s.fd_list_filtered.length : Int) - 1
  if index < 0 ∨ index > list_i then s
  else if 0 ≤ index ∧ index ≤ s.avail_lines_i then
    { s with cursor := index, offset := 0 }
  else
    let lastpage_first_i := list_i - s.avail_lines_i
    if lastpage_first_i + 2 ≤ index ∧ index ≤ list_i then
      let c := s.avail_lines_i - (list_i - index)
      { s with cursor := c, offset := index - c }
    else
      let c := s.avail_lines / 2
      let rema := s.avail_lines - c
      let off := index - rema
      { s with cursor := c, offset := if c ≠ rema then off + 1 else off }

/-- `App.refresh_sizes` from mpl.py, as a function of the terminal
height `curses.LINES`. -/
def refresh_sizes (s : AppState) (term_lines : Int) : AppState :=
  { s with avail_lines := term_lines - UNUSED_LINES,
           avail_lines_i := term_lines - UNUSED_LINES - 1 }

/-- The `KEY_RESIZE` branch of `App.input`: recompute the sizes, then
re-place the cursor at the previously selected index. -/
def input_resize (s : AppState) (term_lines : Int) : AppState :=
  let s := refresh_sizes s term_lines
  set_cursor s (get_index s)

/-- `App.choose` from mpl.py.  External inputs are parameters: the
absolute path of the directory after `cd` (used by `refresh_fd_list`
for full paths), the listing outcome, and the pid of a newly spawned
player (`mpv_open_iso` is used when the extension is `"iso"`,
`mpv_open` otherwise; both only append the fresh pid to `pids`).
`save_last_item` writes `last_item` to the external store and does not
change any state field. -/
def choose (s : AppState) (new_cur_path : List Char)
    (listing : Except OSErr (List RawEntry)) (new_pid : Int)
    (with_save : Bool := false) (mpv_paused : Bool := false) :
    Except OSErr AppState :=
  match py_index s.fd_list_filtered (get_index s) with
  | none => .ok s
  | some item =>
    if item.is_dir then
      match refresh_fd_list new_cur_path listing with
      | .error e => .error e
      | .ok fd' =>
        let s := { s with current_dir_list := navi_cd s.current_dir_list item.name,
                          filter_text := [], fd_list := fd' }
        let s := refresh_fd_list_filtered s
        .ok { s with cursor := 0, offset := 0 }
    else
      let ext := item.get_ext
      if ext ∈ SUB_EXTS then
        if s.sub_path ≠ item.full then
          .ok { s with sub_path := item.full,
                       current_message := "Subtitle selected: ".data ++ item.name }
        else
          .ok { s with sub_path := [],
                       current_message := "No subtitle selected.".data }
      else
        let s := { s with pids := s.pids ++ [new_pid] }
        if with_save then
          .ok { s with last_item := item.full,
                       current_message := "Saved for later playback: ".data ++ item.name }
        else .ok s

/-- The `KEY_LEFT` branch of `App.input`: go to the parent directory.
`prev_dirname` is `os.path.basename` of the directory left behind and
`new_cur_path` the absolute path of the parent, both resolved by the
environment-dependent `os.path` functions. -/
def input_left (s : AppState) (prev_dirname new_cur_path : List Char)
    (listing : Except OSErr (List RawEntry)) : Except OSErr AppState :=
  let s := { s with current_dir_list := navi_cd s.current_dir_list "..".data,
                    filter_text := [], filter_show_dirs := true }
  match refresh_fd_list new_cur_path listing with
  | .error e => .error e
  | .ok fd' =>
    let s := refresh_fd_list_filtered { s with fd_list := fd' }
    .ok (set_cursor s (get_index_by_name s.fd_list_filtered prev_dirname))

/-- The colour-pair classification of one list row in `App.draw`:
directory, remembered item, then the extension sets, else default. -/
def entry_color (it : FdItem) (last_item : List Char) : Nat :=
  if it.is_dir then 4
  else if it.full = last_item then 6
  else if it.get_ext ∈ VIDEO_EXTS then 2
  else if it.get_ext ∈ AUDIO_EXTS then 3
  else if it.get_ext ∈ SUB_EXTS then 5
  else if it.get_ext ∈ OTHER_EXTS then 7
  else 1

/-- The viewport invariant of the specification: the cursor stays
within the visible rows, the offset is non-negative, and the selected
index `cursor + offset` is a valid index of the filtered list (or `0`
when the list is empty). -/
def viewport_inv (s : AppState) : Prop :=
  0 ≤ s.cursor ∧ s.cursor ≤ s.avail_lines - 1 ∧ 0 ≤ s.offset ∧
    (if s.fd_list_filtered.length = 0 then s.cursor + s.offset = 0
     else 0 ≤ s.cursor + s.offset ∧ s.cursor + s.offset < (s.fd_list_filtered.length : Int))

instance (s : AppState) : Decidable (viewport_inv s) := by
  unfold viewport_inv
  infer_instance

/-! ### Claim C8: soft failure of the directory lister -/

/-- C8: for every directory path on which listing fails with permission
denied, path not found, or path not a directory, `refresh_fd_list`
produces an empty listing and the error does not propagate (the result
is `Except.ok`, not `Except.error`). -/
theorem refresh_fd_list_soft_failure :
    ∀ cur : List Char,
      refresh_fd_list cur (.error .permissionError) = .ok []
      ∧ refresh_fd_list cur (.error .fileNotFoundError) = .ok []
      ∧ refresh_fd_list cur (.error .notADirectoryError) = .ok [] := by
  intro cur
  exact ⟨rfl, rfl, rfl⟩

/-! ### Claim C6: the ignore-set comparison is case-sensitive (code bug) -/

/-- C6: the claim (and the source's own comment on `IGNORED_NAMES`,
"Case-insensitive!") says entries equal to an ignored name under
case-insensitive comparison are excluded, so `".GIT"` and
`"Lost+Found"` should never appear in a listing.  The membership test
`item in IGNORED_NAMES` compares exactly, so both entries are kept;
only the exact spellings `".git"` and `"lost+found"` are excluded. -/
theorem ignored_names_case_sensitivity_bug :
    refresh_fd_list "/d".data (.ok [⟨".GIT".data, true, 1⟩, ⟨"Lost+Found".data, true, 2⟩])
      = .ok [⟨true, ".GIT".data, "/d/.GIT".data, 1⟩, ⟨true, "Lost+Found".data, "/d/Lost+Found".data, 2⟩]
    ∧ refresh_fd_list "/d".data (.ok [⟨".git".data, true, 1⟩, ⟨"lost+found".data, true, 2⟩])
      = .ok [] := by
  exact ⟨rfl, rfl⟩

/-! ### Claim C9: DVD vs Blu-ray profile selection -/

/-- The command line `mpv_open_iso` builds when it picks the DVD
profile (`dvd://` with `--dvd-device=`). -/
def dvd_iso_cmd (path : List Char) (paused : Bool) : List Char :=
  space_join ((if paused then [ENV_MPVL_MPV_CMD, MPV_PAUSE_FLAG] else [ENV_MPVL_MPV_CMD])
    ++ [MPV_DVD_ISO_OPTION ++ dquote path])

/-- The command line `mpv_open_iso` builds when it picks the Blu-ray
profile (`bd://` with `--bluray-device=`). -/
def bd_iso_cmd (path : List Char) (paused : Bool) : List Char :=
  space_join ((if paused then [ENV_MPVL_MPV_CMD, MPV_PAUSE_FLAG] else [ENV_MPVL_MPV_CMD])
    ++ [MPV_BD_ISO_OPTION ++ dquote path])

theorem space_join_append_single (ps : List (List Char)) (x : List Char) (h : ps ≠ []) :
    space_join (ps ++ [x]) = space_join ps ++ SPACE_CHAR :: x := by
  induction ps with
  | nil => exact absurd rfl h
  | cons p ps ih =>
    cases ps with
    | nil => simp [space_join, List.intersperse]
    | cons q qs =>
      have ih2 := ih (by simp)
      simp only [space_join, List.cons_append, List.intersperse_cons_cons,
        List.flatten_cons] at ih2 ⊢
      simp [ih2]

theorem dvd_iso_cmd_ne_bd_iso_cmd (path : List Char) (paused : Bool) :
    dvd_iso_cmd path paused ≠ bd_iso_cmd path paused := by
  intro h
  unfold dvd_iso_cmd bd_iso_cmd at h
  rw [space_join_append_single _ _ (by cases paused <;> simp),
      space_join_append_single _ _ (by cases paused <;> simp)] at h
  have h2 := List.append_cancel_left h
  have h3 : (MPV_DVD_ISO_OPTION ++ dquote path).head? = (MPV_BD_ISO_OPTION ++ dquote path).head? := by
    rw [List.cons_injective h2]
  simp [MPV_DVD_ISO_OPTION, MPV_BD_ISO_OPTION] at h3

/-- C9: `mpv_open_iso` chooses the DVD profile exactly when the file
size is strictly below `DVD9_SIZE = 8500000000` bytes and the Blu-ray
profile exactly when the size is at or above it; in particular size
4000000000 selects DVD and size 9000000000 selects Blu-ray. -/
theorem mpv_open_iso_profile_threshold :
    ∀ (path : List Char) (size : Int) (paused : Bool),
      (mpv_open_iso path size paused = dvd_iso_cmd path paused ↔ size < DVD9_SIZE)
      ∧ (mpv_open_iso path size paused = bd_iso_cmd path paused ↔ DVD9_SIZE ≤ size)
      ∧ mpv_open_iso path 4000000000 paused = dvd_iso_cmd path paused
      ∧ mpv_open_iso path 9000000000 paused = bd_iso_cmd path paused := by
  intro path size paused
  have hform : ∀ sz : Int, mpv_open_iso path sz paused =
      if sz < DVD9_SIZE then dvd_iso_cmd path paused else bd_iso_cmd path paused := by
    intro sz
    unfold mpv_open_iso dvd_iso_cmd bd_iso_cmd
    by_cases hsz : sz < DVD9_SIZE <;> cases paused <;> simp [hsz]
  refine ⟨?_, ?_, ?_, ?_⟩
  · rw [hform]
    by_cases hsz : size < DVD9_SIZE
    · exact iff_of_true (by rw [if_pos hsz]) hsz
    · refine iff_of_false ?_ hsz
      rw [if_neg hsz]
      intro h
      exact dvd_iso_cmd_ne_bd_iso_cmd path paused h.symm
  · rw [hform]
    by_cases hsz : size < DVD9_SIZE
    · refine iff_of_false ?_ (by omega)
      rw [if_pos hsz]
      exact dvd_iso_cmd_ne_bd_iso_cmd path paused
    · exact iff_of_true (by rw [if_neg hsz]) (by omega)
  · rw [hform]
    norm_num [DVD9_SIZE]
  · rw [hform]
    norm_num [DVD9_SIZE]

/-! ### Claim C7: the word-match predicate -/

theorem py_tolower_eq_space_iff (c : Char) : py_tolower c = SPACE_CHAR ↔ c = SPACE_CHAR := by
  constructor
  · intro h
    unfold py_tolower at h
    split at h <;> first
      | exact absurd h (by decide)
      | exact h
  · intro h
    subst h
    rfl

theorem py_split_ne_nil (sep : Char) (l : List Char) : py_split sep l ≠ [] := by
  cases l with
  | nil => simp [py_split]
  | cons a as =>
    unfold py_split
    cases h : py_split sep as with
    | nil => simp
    | cons w ws => by_cases hc : a = sep <;> simp [hc]

theorem py_split_cons (sep a : Char) (as : List Char) :
    py_split sep (a :: as) =
      match py_split sep as with
      | [] => [[]]
      | w :: ws => if a = sep then [] :: w :: ws else (a :: w) :: ws := rfl

theorem py_split_casefold (t : List Char) :
    py_split SPACE_CHAR (py_casefold t) = (py_split SPACE_CHAR t).map py_casefold := by
  induction t with
  | nil => rfl
  | cons a as ih =>
    obtain ⟨w, ws, hws⟩ : ∃ w ws, py_split SPACE_CHAR as = w :: ws := by
      cases h : py_split SPACE_CHAR as with
      | nil => exact absurd h (py_split_ne_nil _ _)
      | cons w ws => exact ⟨w, ws, rfl⟩
    have lhs : py_casefold (a :: as) = py_tolower a :: py_casefold as := rfl
    rw [lhs, py_split_cons, py_split_cons, ih, hws]
    simp only [List.map_cons]
    by_cases hc : a = SPACE_CHAR
    · rw [if_pos hc, if_pos ((py_tolower_eq_space_iff a).mpr hc)]
      simp [py_casefold]
    · rw [if_neg hc, if_neg (fun h => hc ((py_tolower_eq_space_iff a).mp h))]
      simp [py_casefold]

theorem search_by_words_iff (term text : List Char) :
    search_by_words term text = true ↔
      ∀ w ∈ py_split SPACE_CHAR (py_casefold term), py_strip w <:+: py_casefold text := by
  unfold search_by_words
  simp only [Bool.false_eq_true, if_false, beq_iff_eq]
  rw [eq_comm, List.countP_eq_length]
  constructor
  · intro h w hw
    exact of_decide_eq_true (h w (List.mem_dedup.mpr hw))
  · intro h w hw
    exact decide_eq_true (h w (List.mem_dedup.mp hw))

/-- C7: `search_by_words` splits the term on the space character into a
set of words and succeeds iff every word, once stripped of surrounding
whitespace, is a substring of the name, both sides casefolded (so the
comparison is case-insensitive); the empty term matches every name; the
result is invariant under reordering the words of the term; and the
term "foo bar" matches the name "xbarfooy" but not the name "foo". -/
theorem search_by_words_spec :
    (∀ term text : List Char, search_by_words term text = true ↔
        ∀ w ∈ py_split SPACE_CHAR (py_casefold term), py_strip w <:+: py_casefold text)
    ∧ (∀ text : List Char, search_by_words [] text = true)
    ∧ (∀ term term' text : List Char,
        (py_split SPACE_CHAR term).Perm (py_split SPACE_CHAR term') →
          search_by_words term text = search_by_words term' text)
    ∧ search_by_words "foo bar".data "xbarfooy".data = true
    ∧ search_by_words "foo bar".data "foo".data = false := by
  refine ⟨search_by_words_iff, ?_, ?_, by decide, by decide⟩
  · intro text
    rw [search_by_words_iff]
    intro w hw
    simp [py_casefold, py_split] at hw
    subst hw
    show py_strip [] <:+: py_casefold text
    have hnil : py_strip [] = [] := rfl
    rw [hnil]
    exact List.nil_infix
  · intro t1 t2 text hperm
    have hmem : ∀ w, w ∈ py_split SPACE_CHAR (py_casefold t1) ↔
        w ∈ py_split SPACE_CHAR (py_casefold t2) := by
      intro w
      rw [py_split_casefold, py_split_casefold]
      exact (hperm.map py_casefold).mem_iff
    have hiff : search_by_words t1 text = true ↔ search_by_words t2 text = true := by
      rw [search_by_words_iff, search_by_words_iff]
      exact ⟨fun h w hw => h w ((hmem w).mpr hw), fun h w hw => h w ((hmem w).mp hw)⟩
    cases hb1 : search_by_words t1 text <;> cases hb2 : search_by_words t2 text <;> simp_all

/-- Witness for C7: reordering the words of the term "foo bar" leaves
the match result on "xbarfooy" unchanged. -/
theorem search_by_words_spec_witness :
    search_by_words "bar foo".data "xbarfooy".data
      = search_by_words "foo bar".data "xbarfooy".data :=
  search_by_words_spec.2.2.1 "bar foo".data "foo bar".data "xbarfooy".data (by decide)

/-! ### Claims C1-C3: viewport controller -/

theorem set_cursor_noop (s : AppState) (i : Int)
    (h : i < 0 ∨ i > (s.fd_list_filtered.length : Int) - 1) :
    set_cursor s i = s := by
  unfold set_cursor
  rw [if_pos h]

theorem set_cursor_first_page (s : AppState) (i : Int)
    (hvalid : ¬(i < 0 ∨ i > (s.fd_list_filtered.length : Int) - 1))
    (h : 0 ≤ i ∧ i ≤ s.avail_lines_i) :
    set_cursor s i = { s with cursor := i, offset := 0 } := by
  simp only [set_cursor]
  rw [if_neg hvalid, if_pos h]

theorem set_cursor_last_page (s : AppState) (i : Int)
    (hvalid : ¬(i < 0 ∨ i > (s.fd_list_filtered.length : Int) - 1))
    (h1 : ¬(0 ≤ i ∧ i ≤ s.avail_lines_i))
    (h2 : ((s.fd_list_filtered.length : Int) - 1 - s.avail_lines_i) + 2 ≤ i
        ∧ i ≤ (s.fd_list_filtered.length : Int) - 1) :
    set_cursor s i =
      { s with cursor := s.avail_lines_i - ((s.fd_list_filtered.length : Int) - 1 - i),
               offset := i - (s.avail_lines_i - ((s.fd_list_filtered.length : Int) - 1 - i)) } := by
  simp only [set_cursor]
  rw [if_neg hvalid, if_neg h1, if_pos h2]

theorem set_cursor_middle (s : AppState) (i : Int)
    (hvalid : ¬(i < 0 ∨ i > (s.fd_list_filtered.length : Int) - 1))
    (h1 : ¬(0 ≤ i ∧ i ≤ s.avail_lines_i))
    (h2 : ¬(((s.fd_list_filtered.length : Int) - 1 - s.avail_lines_i) + 2 ≤ i
        ∧ i ≤ (s.fd_list_filtered.length : Int) - 1)) :
    set_cursor s i =
      { s with cursor := s.avail_lines / 2,
               offset := if s.avail_lines / 2 ≠ s.avail_lines - s.avail_lines / 2
                 then i - (s.avail_lines - s.avail_lines / 2) + 1
                 else i - (s.avail_lines - s.avail_lines / 2) } := by
  simp only [set_cursor]
  rw [if_neg hvalid, if_neg h1, if_neg h2]

theorem set_cursor_inv_of_valid (s : AppState) (i : Int)
    (hali : s.avail_lines_i = s.avail_lines - 1)
    (hR : 1 ≤ s.avail_lines)
    (h0 : 0 ≤ i) (hN : i < (s.fd_list_filtered.length : Int)) :
    viewport_inv (set_cursor s i) := by
  have hvalid : ¬(i < 0 ∨ i > (s.fd_list_filtered.length : Int) - 1) := by omega
  have hlen : s.fd_list_filtered.length ≠ 0 := by omega
  by_cases hfp : 0 ≤ i ∧ i ≤ s.avail_lines_i
  · rw [set_cursor_first_page s i hvalid hfp]
    unfold viewport_inv
    simp only []
    rw [if_neg hlen]
    omega
  · by_cases hlp : ((s.fd_list_filtered.length : Int) - 1 - s.avail_lines_i) + 2 ≤ i
        ∧ i ≤ (s.fd_list_filtered.length : Int) - 1
    · rw [set_cursor_last_page s i hvalid hfp hlp]
      unfold viewport_inv
      simp only []
      rw [if_neg hlen]
      omega
    · rw [set_cursor_middle s i hvalid hfp hlp]
      unfold viewport_inv
      simp only []
      rw [if_neg hlen]
      by_cases hpar : s.avail_lines / 2 ≠ s.avail_lines - s.avail_lines / 2
      · rw [if_pos hpar]
        omega
      · rw [if_neg hpar]
        omega

theorem set_cursor_inv (s : AppState) (i : Int)
    (hali : s.avail_lines_i = s.avail_lines - 1)
    (hR : 1 ≤ s.avail_lines) (hinv : viewport_inv s) :
    viewport_inv (set_cursor s i) := by
  by_cases hvalid : i < 0 ∨ i > (s.fd_list_filtered.length : Int) - 1
  · rw [set_cursor_noop s i hvalid]
    exact hinv
  · push_neg at hvalid
    exact set_cursor_inv_of_valid s i hali hR (hvalid.1) (by omega)

theorem input_down_inv (s : AppState)
    (hali : s.avail_lines_i = s.avail_lines - 1)
    (hR : 1 ≤ s.avail_lines) (hinv : viewport_inv s)
    (hne : s.fd_list_filtered ≠ []) : viewport_inv (input_down s) := by
  have hlen : 0 < s.fd_list_filtered.length := List.length_pos.mpr hne
  unfold viewport_inv at hinv
  rw [if_neg (by omega)] at hinv
  unfold input_down get_index
  by_cases hend : s.cursor + s.offset = (s.fd_list_filtered.length : Int) - 1
  · rw [if_pos hend]
    unfold viewport_inv
    rw [if_neg (by omega)]
    omega
  · rw [if_neg hend]
    simp only []
    by_cases hclamp : s.cursor + 1 > s.avail_lines_i
    · rw [if_pos hclamp]
      unfold viewport_inv
      simp only []
      rw [if_neg (by omega)]
      omega
    · rw [if_neg hclamp]
      unfold viewport_inv
      simp only []
      rw [if_neg (by omega)]
      omega

theorem input_up_inv (s : AppState)
    (hali : s.avail_lines_i = s.avail_lines - 1)
    (hR : 1 ≤ s.avail_lines) (hinv : viewport_inv s) : viewport_inv (input_up s) := by
  unfold viewport_inv at hinv
  unfold input_up get_index
  by_cases h0 : s.cursor + s.offset = 0
  · rw [if_pos h0]
    unfold viewport_inv
    exact hinv
  · rw [if_neg h0]
    simp only []
    have hlen : s.fd_list_filtered.length ≠ 0 := by
      intro h
      rw [if_pos h] at hinv
      omega
    rw [if_neg hlen] at hinv
    by_cases hneg : s.cursor - 1 < 0
    · rw [if_pos hneg]
      unfold viewport_inv
      simp only []
      rw [if_neg hlen]
      omega
    · rw [if_neg hneg]
      unfold viewport_inv
      simp only []
      rw [if_neg hlen]
      omega

theorem reset_index_inv (s : AppState) (hR : 1 ≤ s.avail_lines) :
    viewport_inv (reset_index s) := by
  unfold reset_index viewport_inv
  simp only []
  split_ifs <;> omega

theorem input_resize_inv (s : AppState) (hinv : viewport_inv s) (L : Int)
    (hR' : 1 ≤ L - UNUSED_LINES) : viewport_inv (input_resize s L) := by
  unfold input_resize refresh_sizes get_index
  simp only []
  by_cases hlen : s.fd_list_filtered.length = 0
  · have h0 : s.cursor = 0 ∧ s.offset = 0 := by
      unfold viewport_inv at hinv
      rw [if_pos hlen] at hinv
      omega
    rw [set_cursor_noop _ _ (by right; simp only []; omega)]
    unfold viewport_inv
    simp only []
    rw [if_pos hlen]
    omega
  · apply set_cursor_inv_of_valid
    · rfl
    · show (1 : Int) ≤ L - UNUSED_LINES
      exact hR'
    · unfold viewport_inv at hinv
      rw [if_neg hlen] at hinv
      omega
    · show s.cursor + s.offset < (s.fd_list_filtered.length : Int)
      unfold viewport_inv at hinv
      rw [if_neg hlen] at hinv
      omega

/-- A concrete file entry used in the concrete states below. -/
def sample_item : FdItem := ⟨false, "a.mp3".data, "/d/a.mp3".data, 3⟩

/-- A concrete application state; the concrete states below override
individual fields of it. -/
def base_state : AppState :=
  { cursor := 0, offset := 0, avail_lines := 1, avail_lines_i := 0,
    current_dir_list := ["/d".data], fd_list := [], fd_list_filtered := [],
    filter_show_dirs := true, filter_show_hidden := false,
    filter_exts := [], filter_text := [], current_message := [],
    pids := [], sub_path := [], last_item := [] }

/-- C1 (amended): with a visible-row budget of at least one row, every
viewport operation preserves the invariant — move up, reset, jump to
index, and resize re-placement unconditionally, and move down whenever
the filtered list is non-empty.  (On an empty list move down is not a
no-op and breaks the invariant; see the counterexample.) -/
theorem viewport_ops_preserve_inv (s : AppState)
    (hali : s.avail_lines_i = s.avail_lines - 1)
    (hR : 1 ≤ s.avail_lines) (hinv : viewport_inv s) :
    (s.fd_list_filtered ≠ [] → viewport_inv (input_down s))
    ∧ viewport_inv (input_up s)
    ∧ viewport_inv (reset_index s)
    ∧ (∀ i : Int, viewport_inv (set_cursor s i))
    ∧ (∀ L : Int, 1 ≤ L - UNUSED_LINES → viewport_inv (input_resize s L)) :=
  ⟨fun hne => input_down_inv s hali hR hinv hne,
   input_up_inv s hali hR hinv,
   reset_index_inv s hR,
   fun i => set_cursor_inv s i hali hR hinv,
   fun L hL => input_resize_inv s hinv L hL⟩

/-- The state refuting C1: an empty filtered list under a two-row
budget, cursor and offset at 0. -/
def c1_state : AppState := { base_state with avail_lines := 2, avail_lines_i := 1 }

/-- C1 counterexample: on the empty filtered list (N = 0) the state
`cursor = offset = 0` satisfies the invariant, but `input_down` is not
a no-op there (`get_index() == len - 1` compares 0 with -1): it moves
the cursor to 1, so `cursor + offset = 1 ≠ 0` and the invariant is
broken. -/
theorem viewport_inv_input_down_counterexample :
    viewport_inv c1_state
    ∧ c1_state.avail_lines_i = c1_state.avail_lines - 1
    ∧ 1 ≤ c1_state.avail_lines
    ∧ c1_state.fd_list_filtered.length = 0
    ∧ (input_down c1_state).cursor + (input_down c1_state).offset = 1
    ∧ ¬ viewport_inv (input_down c1_state) :=
  ⟨by decide, by decide, by decide, by decide, by decide, by decide⟩

/-- A concrete non-empty state (3 entries, 2 visible rows) for the C1
witness. -/
def c1_witness_state : AppState :=
  { base_state with
    avail_lines := 2
    avail_lines_i := 1
    fd_list_filtered := [sample_item, sample_item, sample_item] }

/-- Witness for C1 (amended), instantiated on a 3-entry list with a
2-row budget. -/
theorem viewport_ops_preserve_inv_witness :
    viewport_inv (input_down c1_witness_state)
    ∧ viewport_inv (input_up c1_witness_state)
    ∧ viewport_inv (set_cursor c1_witness_state 2)
    ∧ viewport_inv (input_resize c1_witness_state 5) :=
  ⟨(viewport_ops_preserve_inv c1_witness_state (by decide) (by decide) (by decide)).1 (by decide),
   (viewport_ops_preserve_inv c1_witness_state (by decide) (by decide) (by decide)).2.1,
   (viewport_ops_preserve_inv c1_witness_state (by decide) (by decide) (by decide)).2.2.2.1 2,
   (viewport_ops_preserve_inv c1_witness_state (by decide) (by decide) (by decide)).2.2.2.2 5 (by decide)⟩

/-- C2 (amended): last-page pinning applies only when the target is at
least `lastpage_first_i + 2 = N - R + 2` (equivalently
`N-1-target ≤ R-3`), not on the whole claimed range `N-1-target ≤ R-1`;
on that narrower range `set_cursor` sets
`cursor = R-1 - (N-1-target)` and `offset = target - cursor`. -/
theorem set_cursor_last_page_spec (s : AppState) (i : Int)
    (hali : s.avail_lines_i = s.avail_lines - 1)
    (h1 : s.avail_lines - 1 < i)
    (h2 : (s.fd_list_filtered.length : Int) - s.avail_lines + 2 ≤ i)
    (h3 : i ≤ (s.fd_list_filtered.length : Int) - 1) :
    (set_cursor s i).cursor
        = (s.avail_lines - 1) - ((s.fd_list_filtered.length : Int) - 1 - i)
    ∧ (set_cursor s i).offset = i - (set_cursor s i).cursor := by
  have hvalid : ¬(i < 0 ∨ i > (s.fd_list_filtered.length : Int) - 1) := by omega
  have hfp : ¬(0 ≤ i ∧ i ≤ s.avail_lines_i) := by omega
  have hlp : ((s.fd_list_filtered.length : Int) - 1 - s.avail_lines_i) + 2 ≤ i
      ∧ i ≤ (s.fd_list_filtered.length : Int) - 1 := by omega
  rw [set_cursor_last_page s i hvalid hfp hlp]
  simp only []
  refine ⟨by omega, trivial⟩

/-- The state refuting C2 as stated: N = 10 entries, R = 4 rows. -/
def c2_state : AppState :=
  { base_state with
    avail_lines := 4
    avail_lines_i := 3
    fd_list_filtered := List.replicate 10 sample_item }

/-- C2 counterexample: with N = 10, R = 4, target 6 lies past the first
page and within R-1 = 3 of the list end (N-1-target = 3), so the claim
predicts cursor = R-1 - (N-1-target) = 0 and offset = 6; but
`set_cursor` only pins from target ≥ N-R+2 = 8, so target 6 is centred
instead: cursor = 2 and offset = 4. -/
theorem set_cursor_last_page_counterexample :
    (c2_state.avail_lines - 1 < 6
      ∧ (6 : Int) ≤ (c2_state.fd_list_filtered.length : Int) - 1
      ∧ (c2_state.fd_list_filtered.length : Int) - 1 - 6 ≤ c2_state.avail_lines - 1)
    ∧ (set_cursor c2_state 6).cursor = 2
    ∧ (set_cursor c2_state 6).offset = 4
    ∧ ¬((set_cursor c2_state 6).cursor
        = (c2_state.avail_lines - 1) - ((c2_state.fd_list_filtered.length : Int) - 1 - 6)) :=
  ⟨by decide, by decide, by decide, by decide⟩

/-- The spec's Scenario 1 state: N = 5 entries, R = 3 rows. -/
def c2_witness_state : AppState :=
  { base_state with
    avail_lines := 3
    avail_lines_i := 2
    fd_list_filtered := List.replicate 5 sample_item }

/-- Witness for C2 (amended): with N = 5 and R = 3, `set_cursor 4`
lands in the last-page branch and yields cursor = 2, offset = 2. -/
theorem set_cursor_last_page_spec_witness :
    ((set_cursor c2_witness_state 4).cursor
        = (c2_witness_state.avail_lines - 1)
            - ((c2_witness_state.fd_list_filtered.length : Int) - 1 - 4)
      ∧ (set_cursor c2_witness_state 4).offset = 4 - (set_cursor c2_witness_state 4).cursor)
    ∧ (set_cursor c2_witness_state 4).cursor = 2
    ∧ (set_cursor c2_witness_state 4).offset = 2 :=
  ⟨set_cursor_last_page_spec c2_witness_state 4 (by decide) (by decide) (by decide) (by decide),
   by decide, by decide⟩

/-- C3: for a target past the first page and more than R-1 away from
the list end, `set_cursor` centres it: cursor = R // 2 (floor), with
remainder rema = R - cursor the offset is target - rema, incremented by
one exactly when cursor ≠ rema, and the selected index stays target. -/
theorem set_cursor_middle_spec (s : AppState) (i : Int)
    (hali : s.avail_lines_i = s.avail_lines - 1)
    (hR : 1 ≤ s.avail_lines)
    (h1 : s.avail_lines - 1 < i)
    (h2 : s.avail_lines - 1 < (s.fd_list_filtered.length : Int) - 1 - i) :
    (set_cursor s i).cursor = s.avail_lines / 2
    ∧ (set_cursor s i).offset
        = (if s.avail_lines / 2 ≠ s.avail_lines - s.avail_lines / 2
           then i - (s.avail_lines - s.avail_lines / 2) + 1
           else i - (s.avail_lines - s.avail_lines / 2))
    ∧ (set_cursor s i).cursor + (set_cursor s i).offset = i := by
  have hvalid : ¬(i < 0 ∨ i > (s.fd_list_filtered.length : Int) - 1) := by omega
  have hfp : ¬(0 ≤ i ∧ i ≤ s.avail_lines_i) := by omega
  have hlp : ¬(((s.fd_list_filtered.length : Int) - 1 - s.avail_lines_i) + 2 ≤ i
      ∧ i ≤ (s.fd_list_filtered.length : Int) - 1) := by omega
  rw [set_cursor_middle s i hvalid hfp hlp]
  simp only []
  refine ⟨trivial, trivial, ?_⟩
  by_cases hpar : s.avail_lines / 2 ≠ s.avail_lines - s.avail_lines / 2
  · rw [if_pos hpar]
    omega
  · rw [if_neg hpar]
    omega

/-- The spec's Scenario 2 state: N = 100 entries, R = 10 rows. -/
def c3_state : AppState :=
  { base_state with
    avail_lines := 10
    avail_lines_i := 9
    fd_list_filtered := List.replicate 100 sample_item }

/-- Witness for C3: with N = 100 and R = 10, `set_cursor 50` centres
the target: cursor = 5, offset = 45, and 5 + 45 = 50. -/
theorem set_cursor_middle_spec_witness :
    ((set_cursor c3_state 50).cursor + (set_cursor c3_state 50).offset = 50)
    ∧ (set_cursor c3_state 50).cursor = 5
    ∧ (set_cursor c3_state 50).offset = 45 :=
  ⟨(set_cursor_middle_spec c3_state 50 (by decide) (by decide) (by decide) (by decide)).2.2,
   by decide, by decide⟩

/-! ### Claim C4: extensions and how they are compared -/

theorem py_rfind_of_not_mem (c : Char) (l : List Char) (h : c ∉ l) :
    py_rfind c l = -1 := by
  induction l with
  | nil => rfl
  | cons a as ih =>
    simp only [List.mem_cons, not_or] at h
    simp only [py_rfind]
    rw [ih h.2, if_neg (by norm_num), if_neg (fun hac => h.1 hac.symm)]

theorem py_rfind_append_last (c : Char) (pre suf : List Char) (h : c ∉ suf) :
    py_rfind c (pre ++ c :: suf) = (pre.length : Int) := by
  induction pre with
  | nil =>
    simp only [List.nil_append, py_rfind]
    rw [py_rfind_of_not_mem c suf h]
    simp
  | cons a as ih =>
    simp only [List.cons_append, py_rfind, List.append_eq]
    rw [ih, if_pos (Int.natCast_nonneg _)]
    simp only [List.length_cons]
    omega

theorem dropWhile_dot_of_not_mem (suf : List Char) (h : ('.' : Char) ∉ suf) :
    py_lstrip_chars ['.'] suf = suf := by
  cases suf with
  | nil => rfl
  | cons c cs =>
    simp only [List.mem_cons, not_or] at h
    unfold py_lstrip_chars
    refine List.dropWhile_cons_of_neg ?_
    simp only [decide_eq_true_eq, List.mem_singleton]
    exact fun hc => h.1 hc.symm

theorem splitext_ext_append (pre suf : List Char) (hsuf : ('.' : Char) ∉ suf)
    (hslash : ('/' : Char) ∉ pre ++ '.' :: suf) :
    splitext_ext (pre ++ '.' :: suf)
      = if pre.any (· ≠ '.') then '.' :: suf else [] := by
  have hsep : py_rfind '/' (pre ++ '.' :: suf) = -1 := py_rfind_of_not_mem _ _ hslash
  have hdot : py_rfind '.' (pre ++ '.' :: suf) = (pre.length : Int) :=
    py_rfind_append_last _ _ _ hsuf
  simp only [splitext_ext, hsep, hdot]
  rw [if_pos (by omega)]
  have e1 : ((-1 : Int) + 1).toNat = 0 := rfl
  have e2 : ((pre.length : Int) - (-1) - 1).toNat = pre.length := by omega
  have e3 : ((pre.length : Int)).toNat = pre.length := by omega
  rw [e1, e2, e3, List.drop_zero, List.take_left, List.drop_left]

theorem get_ext_append (pre suf : List Char) (d : Bool) (f : List Char) (sz : Int)
    (hsuf : ('.' : Char) ∉ suf) (hslash : ('/' : Char) ∉ pre ++ '.' :: suf) :
    FdItem.get_ext ⟨d, pre ++ '.' :: suf, f, sz⟩
      = if pre.all (· = '.') then [] else suf := by
  unfold FdItem.get_ext
  simp only []
  rw [splitext_ext_append pre suf hsuf hslash]
  by_cases hany : pre.any (· ≠ '.') = true
  · have hall : ¬ pre.all (· = '.') = true := by
      simp only [List.any_eq_true, List.all_eq_true, decide_eq_true_eq] at hany ⊢
      obtain ⟨x, hx, hne⟩ := hany
      exact fun hforall => hne (hforall x hx)
    rw [if_pos hany, if_neg hall]
    unfold py_lstrip_chars
    rw [List.dropWhile_cons_of_pos (by simp)]
    exact dropWhile_dot_of_not_mem suf hsuf
  · have hall : pre.all (· = '.') = true := by
      simp only [List.all_eq_true, decide_eq_true_eq]
      intro x hx
      by_contra hne
      apply hany
      simp only [List.any_eq_true, decide_eq_true_eq]
      exact ⟨x, hx, hne⟩
    rw [if_neg hany, if_pos hall]
    rfl

theorem get_ext_no_dot (name : List Char) (d : Bool) (f : List Char) (sz : Int)
    (hdot : ('.' : Char) ∉ name) (hslash : ('/' : Char) ∉ name) :
    FdItem.get_ext ⟨d, name, f, sz⟩ = [] := by
  unfold FdItem.get_ext
  simp only []
  unfold splitext_ext
  rw [py_rfind_of_not_mem _ _ hslash, py_rfind_of_not_mem _ _ hdot]
  rw [if_neg (by norm_num)]
  rfl

/-- C4 counterexample: the name ".bashrc" contains a '.', and the
substring after its last '.' is "bashrc", yet `get_ext` returns the
empty string (a dotfile has no extension under `os.path.splitext`);
and the entry "A.MP3", whose extension differs only in letter case from
the allowed "mp3", is excluded by the extension allow-list filter and
classified with the default colour rather than treated as a member. -/
theorem get_ext_counterexample :
    FdItem.get_ext ⟨false, ".bashrc".data, "/d/.bashrc".data, 1⟩ = []
    ∧ FdItem.get_ext ⟨false, ".bashrc".data, "/d/.bashrc".data, 1⟩ ≠ "bashrc".data
    ∧ FdItem.get_ext ⟨false, "A.MP3".data, "/d/A.MP3".data, 1⟩ = "MP3".data
    ∧ "mp3".data ∈ MPV_EXTENSIONS
    ∧ "MP3".data ∉ MPV_EXTENSIONS
    ∧ keep_item true true MPV_EXTENSIONS [] ⟨false, "A.MP3".data, "/d/A.MP3".data, 1⟩ = false
    ∧ keep_item true true MPV_EXTENSIONS [] ⟨false, "a.mp3".data, "/d/a.mp3".data, 1⟩ = true
    ∧ entry_color ⟨false, "A.MP3".data, "/d/A.MP3".data, 1⟩ [] = 1
    ∧ entry_color ⟨false, "a.mp3".data, "/d/a.mp3".data, 1⟩ [] = 3 :=
  ⟨by decide, by decide, by decide, by decide, by decide, by decide, by decide,
   by decide, by decide⟩

/-- C4 (amended): `get_ext` of a name `pre ++ "." ++ suf` (with the
last dot exhibited, no '/') is `suf` when some character of `pre` is
not itself a dot, and empty otherwise — so dotfile-style names and
dotless names have an empty extension; and extension comparisons are
exact (case-sensitive): a non-directory entry whose exact extension is
not in the non-empty allow-list is filtered out, and one whose exact
extension is in none of the colour sets gets the default colour — so an
extension differing only in letter case from an allowed one is NOT
treated as a member. -/
theorem get_ext_and_comparison_spec (pre suf : List Char) (d : Bool)
    (f : List Char) (sz : Int)
    (hsuf : ('.' : Char) ∉ suf) (hslash : ('/' : Char) ∉ pre ++ '.' :: suf) :
    (FdItem.get_ext ⟨d, pre ++ '.' :: suf, f, sz⟩
        = if pre.all (· = '.') then [] else suf)
    ∧ (∀ (name : List Char), ('.' : Char) ∉ name → ('/' : Char) ∉ name →
        FdItem.get_ext ⟨d, name, f, sz⟩ = [])
    ∧ (∀ (sd sh : Bool) (exts : List (List Char)) (tx : List Char) (it : FdItem),
        it.is_dir = false → exts ≠ [] → it.get_ext ∉ exts →
          keep_item sd sh exts tx it = false)
    ∧ (∀ (it : FdItem) (last : List Char), it.is_dir = false → it.full ≠ last →
        it.get_ext ∉ VIDEO_EXTS → it.get_ext ∉ AUDIO_EXTS →
        it.get_ext ∉ SUB_EXTS → it.get_ext ∉ OTHER_EXTS →
          entry_color it last = 1) := by
  refine ⟨get_ext_append pre suf d f sz hsuf hslash,
    fun name hd hs => get_ext_no_dot name d f sz hd hs, ?_, ?_⟩
  · intro sd sh exts tx it hdir hexts hmem
    unfold keep_item
    split_ifs with h1 h2 h3 h4
    · rfl
    · rfl
    · rfl
    · rfl
    · exact absurd ⟨hexts, hdir, hmem⟩ h3
  · intro it last hdir hfull h2 h3 h4 h5
    unfold entry_color
    rw [if_neg (by simp [hdir]), if_neg hfull, if_neg h2, if_neg h3, if_neg h4, if_neg h5]

/-- Witness for C4 (amended): instantiated on the name "A.MP3" with
the program's allow-list: the extension is the exact string "MP3",
which is not in the (lower-case) allow-list, so the entry is excluded
and coloured with the default pair. -/
theorem get_ext_and_comparison_spec_witness :
    (FdItem.get_ext ⟨false, "A.MP3".data, "/d/A.MP3".data, 1⟩
        = if ("A".data).all (· = '.') then [] else "MP3".data)
    ∧ keep_item true true MPV_EXTENSIONS []
        ⟨false, "A.MP3".data, "/d/A.MP3".data, 1⟩ = false
    ∧ entry_color ⟨false, "A.MP3".data, "/d/A.MP3".data, 1⟩ [] = 1 :=
  ⟨(get_ext_and_comparison_spec "A".data "MP3".data false "/d/A.MP3".data 1
      (by decide) (by decide)).1,
   (get_ext_and_comparison_spec "A".data "MP3".data false "/d/A.MP3".data 1
      (by decide) (by decide)).2.2.1 true true MPV_EXTENSIONS []
      ⟨false, "A.MP3".data, "/d/A.MP3".data, 1⟩ (by decide) (by decide) (by decide),
   (get_ext_and_comparison_spec "A".data "MP3".data false "/d/A.MP3".data 1
      (by decide) (by decide)).2.2.2 ⟨false, "A.MP3".data, "/d/A.MP3".data, 1⟩ []
      (by decide) (by decide) (by decide) (by decide) (by decide) (by decide)⟩

/-! ### Claims C5 and C10: directory changes and subtitle selection -/

theorem set_cursor_fields (s : AppState) (i : Int) :
    (set_cursor s i).filter_show_dirs = s.filter_show_dirs
    ∧ (set_cursor s i).filter_show_hidden = s.filter_show_hidden
    ∧ (set_cursor s i).filter_exts = s.filter_exts
    ∧ (set_cursor s i).filter_text = s.filter_text := by
  refine ⟨?_, ?_, ?_, ?_⟩ <;> (simp only [set_cursor]; split_ifs <;> rfl)

/-- The state refuting C5: directories are currently hidden
(`filter_show_dirs = false`). -/
def c5_state : AppState := { base_state with filter_show_dirs := false }

/-- C5 counterexample: navigating up to the parent does not leave
`show_dirs` unchanged — the `KEY_LEFT` handler forces it back to true,
so a state with `show_dirs = false` comes out with `show_dirs = true`. -/
theorem input_left_show_dirs_counterexample :
    c5_state.filter_show_dirs = false
    ∧ (input_left c5_state "x".data "/".data (.ok [])).map
        (fun t => t.filter_show_dirs) = .ok true :=
  ⟨rfl, rfl⟩

/-- C5 (amended): descending into a selected directory leaves
`show_dirs`, `show_hidden` and the extension allow-list unchanged and
clears the search text; navigating up to the parent likewise clears the
search text and leaves `show_hidden` and the allow-list unchanged, but
it forces `show_dirs` to true rather than leaving it unchanged. -/
theorem dir_change_filter_fields_spec :
    (∀ (s : AppState) (cur : List Char) (listing : Except OSErr (List RawEntry))
        (pid : Int) (ws mp : Bool) (item : FdItem) (s' : AppState),
        py_index s.fd_list_filtered (get_index s) = some item →
        item.is_dir = true →
        choose s cur listing pid ws mp = .ok s' →
          s'.filter_show_dirs = s.filter_show_dirs
          ∧ s'.filter_show_hidden = s.filter_show_hidden
          ∧ s'.filter_exts = s.filter_exts
          ∧ s'.filter_text = [])
    ∧ (∀ (s : AppState) (prev cur : List Char)
        (listing : Except OSErr (List RawEntry)) (s' : AppState),
        input_left s prev cur listing = .ok s' →
          s'.filter_show_dirs = true
          ∧ s'.filter_show_hidden = s.filter_show_hidden
          ∧ s'.filter_exts = s.filter_exts
          ∧ s'.filter_text = []) := by
  constructor
  · intro s cur listing pid ws mp item s' hsel hdir hok
    unfold choose at hok
    rw [hsel] at hok
    simp only [] at hok
    rw [if_pos hdir] at hok
    cases hre : refresh_fd_list cur listing with
    | error e =>
      rw [hre] at hok
      simp at hok
    | ok fd' =>
      rw [hre] at hok
      simp only [Except.ok.injEq] at hok
      subst hok
      exact ⟨rfl, rfl, rfl, rfl⟩
  · intro s prev cur listing s' hok
    unfold input_left at hok
    cases hre : refresh_fd_list cur listing with
    | error e =>
      rw [hre] at hok
      simp at hok
    | ok fd' =>
      rw [hre] at hok
      simp only [Except.ok.injEq] at hok
      subst hok
      exact ⟨(set_cursor_fields _ _).1.trans rfl,
        (set_cursor_fields _ _).2.1.trans rfl,
        (set_cursor_fields _ _).2.2.1.trans rfl,
        (set_cursor_fields _ _).2.2.2.trans rfl⟩

/-- A concrete state whose selected entry is a directory, with every
filter active, for the C5 witness. -/
def c5_witness_state : AppState :=
  { base_state with
    fd_list_filtered := [⟨true, "subdir".data, "/d/subdir".data, 1⟩]
    filter_show_hidden := true
    filter_exts := MPV_EXTENSIONS
    filter_text := "x".data }

/-- The state `choose` produces when descending from
`c5_witness_state` into its selected directory. -/
def c5_descend_result : AppState :=
  (choose c5_witness_state "/d/subdir".data (.ok []) 0 false false).toOption.getD base_state

/-- The state `input_left` produces when navigating up from
`c5_witness_state`. -/
def c5_up_result : AppState :=
  (input_left c5_witness_state "d".data "/".data (.ok [])).toOption.getD base_state

/-- Witness for C5 (amended), instantiated on a concrete descend and a
concrete navigate-up. -/
theorem dir_change_filter_fields_spec_witness :
    (c5_descend_result.filter_show_dirs = c5_witness_state.filter_show_dirs
      ∧ c5_descend_result.filter_show_hidden = c5_witness_state.filter_show_hidden
      ∧ c5_descend_result.filter_exts = c5_witness_state.filter_exts
      ∧ c5_descend_result.filter_text = [])
    ∧ (c5_up_result.filter_show_dirs = true
      ∧ c5_up_result.filter_show_hidden = c5_witness_state.filter_show_hidden
      ∧ c5_up_result.filter_exts = c5_witness_state.filter_exts
      ∧ c5_up_result.filter_text = []) :=
  ⟨dir_change_filter_fields_spec.1 c5_witness_state "/d/subdir".data (.ok []) 0 false false
      ⟨true, "subdir".data, "/d/subdir".data, 1⟩ c5_descend_result rfl rfl rfl,
   dir_change_filter_fields_spec.2 c5_witness_state "d".data "/".data (.ok [])
      c5_up_result rfl⟩

/-- A concrete subtitle entry. -/
def sub_item : FdItem := ⟨false, "a.srt".data, "/d/a.srt".data, 3⟩

/-- The state refuting C10: the selected subtitle's path is already
armed. -/
def c10_state : AppState :=
  { base_state with
    fd_list_filtered := [sub_item]
    sub_path := "/d/a.srt".data
    pids := [7] }

/-- C10 counterexample: choosing a subtitle whose full path is already
the armed subtitle path does not record that path — it clears it (a
toggle): afterwards the armed path is empty, not the entry's full path.
The tracked pid list is unchanged either way. -/
theorem choose_subtitle_counterexample :
    c10_state.sub_path = sub_item.full
    ∧ (choose c10_state "/d".data (.ok []) 0 false false).map (fun t => t.sub_path)
        = .ok []
    ∧ (choose c10_state "/d".data (.ok []) 0 false false).map (fun t => t.pids)
        = .ok c10_state.pids :=
  ⟨rfl, rfl, rfl⟩

/-- C10 (amended): choosing a non-directory entry with a subtitle
extension never spawns a player (the pid list and all other state
fields are unchanged, as the record equality shows): when the entry's
full path is not yet armed it is recorded as the armed subtitle path,
and when it is already armed it is cleared instead (a toggle); only
`sub_path` and the message line change. -/
theorem choose_subtitle_spec (s : AppState) (cur : List Char)
    (listing : Except OSErr (List RawEntry)) (pid : Int) (ws mp : Bool)
    (item : FdItem)
    (hsel : py_index s.fd_list_filtered (get_index s) = some item)
    (hdir : item.is_dir = false)
    (hsub : item.get_ext ∈ SUB_EXTS) :
    choose s cur listing pid ws mp =
      .ok (if s.sub_path ≠ item.full
        then { s with
               sub_path := item.full
               current_message := "Subtitle selected: ".data ++ item.name }
        else { s with
               sub_path := []
               current_message := "No subtitle selected.".data }) := by
  unfold choose
  rw [hsel]
  simp only []
  rw [if_neg (by simp [hdir]), if_pos hsub]
  by_cases htog : s.sub_path ≠ item.full
  · rw [if_pos htog, if_pos htog]
  · rw [if_neg htog, if_neg htog]

/-- A concrete state with an unarmed subtitle selected, for the C10
witness. -/
def c10_witness_state : AppState :=
  { base_state with
    fd_list_filtered := [sub_item]
    pids := [7] }

/-- Witness for C10 (amended): selecting the subtitle records its full
path and changes nothing else (in particular the pid list stays [7]). -/
theorem choose_subtitle_spec_witness :
    choose c10_witness_state "/d".data (.ok []) 0 false false =
      .ok (if c10_witness_state.sub_path ≠ sub_item.full
        then { c10_witness_state with
               sub_path := sub_item.full
               current_message := "Subtitle selected: ".data ++ sub_item.name }
        else { c10_witness_state with
               sub_path := []
               current_message := "No subtitle selected.".data }) :=
  choose_subtitle_spec c10_witness_state "/d".data (.ok []) 0 false false sub_item
    rfl rfl (by decide)
